import Mathlib

/-!
Verification of the `transactions` payments engine

Shallow embedding of the core of the `transactions` repository:

* `src/core/account.rs` — `Account`, `AccountDelta`, `Account::apply`
* `src/core/transaction.rs` — `Transaction`, `TransactionKind`, `TransactionState`
* `src/core/transaction_store.rs` — `TransactionStore` (a `HashMap<TransactionID, Transaction>`)
* `src/core/account_store.rs` — `AccountStore` (a `HashMap<ClientID, Account>`)
* `src/core/transaction_processor.rs` — `produce_delta`, `dispute`, `resolve`,
  `chargeback`, `set_state`, `succeed`, `failed`
* `src/core/engine.rs` — `Engine::process_transaction`

`Amount` is `rust_decimal::Decimal`, an exact fixed-point decimal: a
sign-magnitude 96-bit mantissa with a scale of at most 28, representing
`mantissa / 10 ^ scale`.  Every such value is an integer multiple of
`10 ^ (-28)`, and the ledger only uses addition, negation and comparison with
zero, all of which agree with the integer operations on the count of
`10 ^ (-28)` units (addition is exact after rescaling; overflow, where
`rust_decimal` panics rather than wraps, is outside the claims).  `Amount` is
therefore modelled as `ℤ`, the count of `10 ^ (-28)` units.  The
output-formatting claim depends on the mantissa/scale representation itself,
so a separate `Dec` structure models that representation below.

Both hash maps are modelled as association lists with `HashMap` semantics:
`insertKV` replaces the value in place when the key is present (as
`HashMap::insert` and mutation through `get_mut` / `entry().or_insert` do),
and `lookupKV` finds the value at a key.
-/

namespace Transactions

/-- Rust `pub type ClientID = u16`.  Ids are only compared for equality. -/
abbrev ClientID := Nat

/-- Rust `pub type TransactionID = u32`.  Ids are only compared for equality. -/
abbrev TransactionID := Nat

/-- Rust `pub type Amount = Decimal` — exact decimal arithmetic, modelled as the
integer count of `10 ^ (-28)` units (see the header comment). -/
abbrev Amount := ℤ

/-- Association-list lookup, modelling `HashMap::get` / `get_mut`. -/
def lookupKV {κ β : Type} [DecidableEq κ] (k : κ) : List (κ × β) → Option β
  | [] => none
  | (k', v) :: rest => if k' = k then some v else lookupKV k rest

/-- Association-list insert with `HashMap::insert` semantics: when the key is
present the stored value is replaced in place, otherwise the pair is added. -/
def insertKV {κ β : Type} [DecidableEq κ] (k : κ) (v : β) : List (κ × β) → List (κ × β)
  | [] => [(k, v)]
  | (k', v') :: rest => if k' = k then (k, v) :: rest else (k', v') :: insertKV k v rest

/-- Rust `enum AccountError { Locked, InsufficientFunds }` from `account.rs`. -/
inductive AccountError : Type
  | Locked
  | InsufficientFunds
deriving DecidableEq, Repr

/-- Rust `struct AccountDelta` from `account.rs`: a requested mutation of one
account — optional change to `available`, optional change to `held`, optional
new `locked` value, and the `can_create_debt` flag. -/
structure AccountDelta : Type where
  available : Option Amount := none
  held : Option Amount := none
  locked : Option Bool := none
  can_create_debt : Option Bool := none
deriving DecidableEq, Repr

namespace AccountDelta

/-- Rust `AccountDelta::none()` — the empty delta (`Default::default()`). -/
def none : AccountDelta := {}

/-- Rust `AccountDelta::deposit(amount)`. -/
def deposit (amount : Amount) : AccountDelta := { available := some amount }

/-- Rust `AccountDelta::withdrawal(amount)` — defined in the source as
`Self::deposit(-amount)`. -/
def withdrawal (amount : Amount) : AccountDelta := deposit (-amount)

/-- Rust `AccountDelta::resolve(amount)`. -/
def resolve (amount : Amount) : AccountDelta :=
  { available := some amount, held := some (-amount) }

/-- Rust `AccountDelta::dispute_deposit(amount)`. -/
def dispute_deposit (amount : Amount) : AccountDelta :=
  { available := some (-amount), held := some amount, can_create_debt := some true }

/-- Rust `AccountDelta::dispute_withdrawal(amount)`. -/
def dispute_withdrawal (amount : Amount) : AccountDelta :=
  { held := some amount }

/-- Rust `AccountDelta::chargeback(amount)`. -/
def chargeback (amount : Amount) : AccountDelta :=
  { held := some (-amount), locked := some true }

end AccountDelta

/-- Rust `struct Account` from `account.rs`. -/
structure Account : Type where
  id : ClientID
  available : Amount
  held : Amount
  total : Amount
  locked : Bool
deriving DecidableEq, Repr

namespace Account

/-- Rust `Account::new(id)` — all balance fields zero, `locked` false
(`..Default::default()`). -/
def new (id : ClientID) : Account :=
  { id := id, available := 0, held := 0, total := 0, locked := false }

/-- The tail of `Account::apply` after the `available` step: the `held` step,
the `locked` step, and the unconditional `update_total`
(`self.total = self.available + self.held`). -/
def commitRest (s1 : Account) (change : AccountDelta) : Account :=
  let s2 : Account :=
    match change.held with
    | some held => { s1 with held := s1.held + held }
    | Option.none => s1
  let s3 : Account :=
    match change.locked with
    | some locked => { s2 with locked := locked }
    | Option.none => s2
  { s3 with total := s3.available + s3.held }

/-- Rust `Account::apply(&mut self, change) -> Result<(), AccountError>` as explicit
state passing: the returned account is the (possibly unchanged) post-state and
the `Option AccountError` is `some e` exactly on the `Err(e)` returns.  Each
early `return Err` in the source happens before any field is mutated, so those
branches return `self` unchanged. -/
def apply (self : Account) (change : AccountDelta) : Account × Option AccountError :=
  if self.locked then
    (self, some AccountError.Locked)
  else
    match change.available with
    | some available =>
      if change.can_create_debt.getD false = false ∧ self.available + available < 0 then
        (self, some AccountError.InsufficientFunds)
      else
        (commitRest { self with available := self.available + available } change, Option.none)
    | Option.none => (commitRest self change, Option.none)

end Account

/-- Rust `enum TransactionState` from `transaction.rs`. -/
inductive TransactionState : Type
  | New
  | Succeeded
  | Failed
  | Disputed
  | Resolved
  | Chargeback
deriving DecidableEq, Repr

/-- Rust `enum TransactionKind` from `transaction.rs`. -/
inductive TransactionKind : Type
  | Deposit (amount : Amount)
  | Withdrawal (amount : Amount)
  | Dispute
  | Resolve
  | Chargeback
deriving DecidableEq, Repr

/-- Rust `struct Transaction` from `transaction.rs`, with the fields of the flattened
`TransactionMetadata` (`client_id`, `tx_id`) inlined.  `state` defaults to
`New`, as `#[serde(skip)]` makes every parsed record. -/
structure Transaction : Type where
  kind : TransactionKind
  client_id : ClientID
  tx_id : TransactionID
  state : TransactionState
deriving DecidableEq, Repr

/-- Rust `TransactionStore` from `transaction_store.rs`:
`HashMap<TransactionID, Transaction>`. -/
abbrev TransactionStore := List (TransactionID × Transaction)

/-- Rust `TransactionStore::insert` — `self.transactions.insert(transaction.tx_id(), transaction)`,
i.e. keyed by `tx_id`, replacing any existing entry (`HashMap::insert`). -/
def TransactionStore.insertTx (store : TransactionStore) (t : Transaction) : TransactionStore :=
  insertKV t.tx_id t store

/-- Rust `AccountStore` from `account_store.rs`: `HashMap<ClientID, Account>`. -/
abbrev AccountStore := List (ClientID × Account)

/-!
Section: TransactionProcessor (`transaction_processor.rs`)

The processor's only state is its `TransactionStore`, so each method becomes a
function taking and returning the store.  Mutation through a `get_mut`
reference (`transaction.state = ...`) is modelled by writing the modified
transaction back at its key with `insertKV`, which replaces in place.
-/

/-- Rust `TransactionProcessor::dispute`. -/
def dispute (store : TransactionStore) (disputed_transaction : Transaction) :
    AccountDelta × TransactionStore :=
  match lookupKV disputed_transaction.tx_id store with
  | some transaction =>
    if disputed_transaction.client_id ≠ transaction.client_id then
      (AccountDelta.none, store)
    else if transaction.state = TransactionState.Resolved
        ∨ transaction.state = TransactionState.Chargeback
        ∨ transaction.state = TransactionState.Disputed then
      (AccountDelta.none, store)
    else
      match transaction.kind with
      | TransactionKind.Deposit amount =>
        (AccountDelta.dispute_deposit amount,
         insertKV disputed_transaction.tx_id
           { transaction with state := TransactionState.Disputed } store)
      | TransactionKind.Withdrawal amount =>
        (AccountDelta.dispute_withdrawal amount,
         insertKV disputed_transaction.tx_id
           { transaction with state := TransactionState.Disputed } store)
      | _ => (AccountDelta.none, store)
  | none => (AccountDelta.none, store)

/-- Rust `TransactionProcessor::resolve`. -/
def resolve (store : TransactionStore) (resolve_transaction : Transaction) :
    AccountDelta × TransactionStore :=
  match lookupKV resolve_transaction.tx_id store with
  | some transaction =>
    if resolve_transaction.client_id ≠ transaction.client_id then
      (AccountDelta.none, store)
    else if transaction.state ≠ TransactionState.Disputed then
      (AccountDelta.none, store)
    else
      match transaction.kind with
      | TransactionKind.Deposit amount =>
        (AccountDelta.resolve amount,
         insertKV resolve_transaction.tx_id
           { transaction with state := TransactionState.Resolved } store)
      | TransactionKind.Withdrawal amount =>
        (AccountDelta.resolve amount,
         insertKV resolve_transaction.tx_id
           { transaction with state := TransactionState.Resolved } store)
      | _ => (AccountDelta.none, store)
  | none => (AccountDelta.none, store)

/-- Rust `TransactionProcessor::chargeback`. -/
def chargeback (store : TransactionStore) (chargeback_transaction : Transaction) :
    AccountDelta × TransactionStore :=
  match lookupKV chargeback_transaction.tx_id store with
  | some transaction =>
    if chargeback_transaction.client_id ≠ transaction.client_id then
      (AccountDelta.none, store)
    else if transaction.state = TransactionState.Disputed then
      match transaction.kind with
      | TransactionKind.Deposit amount =>
        (AccountDelta.chargeback amount,
         insertKV chargeback_transaction.tx_id
           { transaction with state := TransactionState.Chargeback } store)
      | TransactionKind.Withdrawal amount =>
        (AccountDelta.chargeback amount,
         insertKV chargeback_transaction.tx_id
           { transaction with state := TransactionState.Chargeback } store)
      | _ => (AccountDelta.none, store)
    else
      (AccountDelta.none, store)
  | none => (AccountDelta.none, store)

/-- Rust `TransactionProcessor::produce_delta` — dispatch on `transaction.kind`;
deposits and withdrawals are inserted into the log, reference operations are
delegated. -/
def produce_delta (store : TransactionStore) (transaction : Transaction) :
    AccountDelta × TransactionStore :=
  match transaction.kind with
  | TransactionKind.Deposit amount =>
    (AccountDelta.deposit amount, store.insertTx transaction)
  | TransactionKind.Withdrawal amount =>
    (AccountDelta.withdrawal amount, store.insertTx transaction)
  | TransactionKind.Dispute => dispute store transaction
  | TransactionKind.Resolve => resolve store transaction
  | TransactionKind.Chargeback => chargeback store transaction

/-- Rust `TransactionProcessor::set_state` — overwrite the stored transaction's
state only when it is currently `New`. -/
def set_state (store : TransactionStore) (tx_id : TransactionID)
    (state : TransactionState) : TransactionStore :=
  match lookupKV tx_id store with
  | some tx =>
    if tx.state = TransactionState.New then
      insertKV tx_id { tx with state := state } store
    else
      store
  | none => store

/-- Rust `TransactionProcessor::succeed`. -/
def succeed (store : TransactionStore) (tx_id : TransactionID) : TransactionStore :=
  set_state store tx_id TransactionState.Succeeded

/-- Rust `TransactionProcessor::failed`. -/
def failed (store : TransactionStore) (tx_id : TransactionID) : TransactionStore :=
  set_state store tx_id TransactionState.Failed

/-!
Section: Engine (`engine.rs`)
-/

/-- The `Engine`'s state: the processor's `TransactionStore` and the
`AccountStore`. -/
structure Engine : Type where
  transactions : TransactionStore
  accounts : AccountStore
deriving DecidableEq, Repr

/-- Rust `Engine::default()` — both stores empty. -/
def Engine.init : Engine := { transactions := [], accounts := [] }

/-- Rust `Engine::process_transaction`: produce the delta, fetch-or-create the
account for the submitting `client_id` (`AccountStore::get_mut_or_new`, i.e.
`entry(client_id).or_insert(Account::new(client_id))`), apply the delta, and
report `succeed`/`failed` back to the transaction log.  The account created or
mutated through the `&mut Account` is written back at its key. -/
def Engine.process_transaction (e : Engine) (transaction : Transaction) : Engine :=
  let client_id := transaction.client_id
  let tx_id := transaction.tx_id
  let p := produce_delta e.transactions transaction
  let acct := (lookupKV client_id e.accounts).getD (Account.new client_id)
  let r := acct.apply p.1
  let accounts' := insertKV client_id r.1 e.accounts
  match r.2 with
  | none => { transactions := succeed p.2 tx_id, accounts := accounts' }
  | some _ => { transactions := failed p.2 tx_id, accounts := accounts' }

/-- A whole run: process a list of transactions in order, starting from the
default engine. -/
def Engine.processAll (txs : List Transaction) : Engine :=
  txs.foldl Engine.process_transaction Engine.init

/-!
Section: Output serialization (`fixed_width_amount` in `account.rs`)

`rust_decimal::Decimal` is a sign-and-magnitude mantissa together with a scale:
the represented value is `mantissa / 10 ^ scale`.  `Dec` models that
representation (mantissa as `Int`).  `round_dp_with_strategy(dp, MidpointAwayFromZero)`
only rounds when the scale exceeds `dp` — it never pads a smaller scale — and
`Decimal`'s `to_string` prints exactly `scale` fractional digits (none when the
scale is zero). -/

/-- The `rust_decimal::Decimal` representation: value `mantissa / 10 ^ scale`. -/
structure Dec : Type where
  mantissa : Int
  scale : Nat
deriving DecidableEq, Repr

/-- The character of a decimal digit (`'0'` … `'9'` for `d < 10`). -/
def digitChar (d : Nat) : Char := Char.ofNat (48 + d)

/-- Decimal digit characters of `n`, most significant first, via explicit fuel
(structural recursion, so the kernel can evaluate it). -/
def natCharsAux : Nat → Nat → List Char
  | 0, _ => []
  | fuel + 1, n =>
    if n < 10 then [digitChar n]
    else natCharsAux fuel (n / 10) ++ [digitChar (n % 10)]

/-- Decimal digit characters of `n`, most significant first. -/
def natChars (n : Nat) : List Char := natCharsAux (n + 1) n

/-- The last `width` decimal digit characters of `n`, zero-padded on the left:
exactly how `Decimal`'s display renders the fractional part (`width` digits of
the fractional value, which is `< 10 ^ width`). -/
def natCharsPadded : Nat → Nat → List Char
  | 0, _ => []
  | width + 1, n => natCharsPadded width (n / 10) ++ [digitChar (n % 10)]

/-- Rust `Decimal` display (`to_string`): optional sign, integer digits, and — only
when the scale is positive — a point followed by exactly `scale` fractional
digits. -/
def Dec.render (d : Dec) : String :=
  let n := d.mantissa.natAbs
  let sign := if d.mantissa < 0 then "-" else ""
  if d.scale = 0 then
    sign ++ String.mk (natChars n)
  else
    let den := 10 ^ d.scale
    sign ++ String.mk (natChars (n / den)) ++ "." ++
      String.mk (natCharsPadded d.scale (n % den))

/-- Rust `round_dp_with_strategy(dp, RoundingStrategy::MidpointAwayFromZero)`: when
the scale exceeds `dp`, drop `scale - dp` digits from the magnitude, rounding
half away from zero; otherwise the value is returned unchanged (no padding). -/
def Dec.round_dp_away (d : Dec) (dp : Nat) : Dec :=
  if d.scale ≤ dp then d
  else
    let p := 10 ^ (d.scale - dp)
    let n := d.mantissa.natAbs
    let q := if p ≤ 2 * (n % p) then n / p + 1 else n / p
    { mantissa := if d.mantissa < 0 then -(q : Int) else (q : Int), scale := dp }

/-- Rust `fixed_width_amount` from `account.rs`: serialize the amount rounded to
`PRECISION = 4` decimal places with `MidpointAwayFromZero`. -/
def fixed_width_amount (amount : Dec) : String :=
  (amount.round_dp_away 4).render

/-- Number of characters after the first `'.'` of a string (0 when there is no
point): the count of fractional digits of a rendered decimal. -/
def fracDigits (s : String) : Nat :=
  match s.data.dropWhile (fun c => c != '.') with
  | [] => 0
  | _ :: rest => rest.length

/-!
Section: Helper lemmas: association-list maps
-/

theorem lookupKV_insertKV_self {κ β : Type} [DecidableEq κ] (k : κ) (v : β)
    (l : List (κ × β)) : lookupKV k (insertKV k v l) = some v := by
  induction l with
  | nil => simp [insertKV, lookupKV]
  | cons p rest ih =>
    obtain ⟨pk, pv⟩ := p
    by_cases hp : pk = k
    · subst hp
      simp [insertKV, lookupKV]
    · simp [insertKV, lookupKV, hp, ih]

theorem lookupKV_insertKV_ne {κ β : Type} [DecidableEq κ] {k k' : κ} (v : β)
    (l : List (κ × β)) (h : k' ≠ k) :
    lookupKV k' (insertKV k v l) = lookupKV k' l := by
  induction l with
  | nil => simp [insertKV, lookupKV, Ne.symm h]
  | cons p rest ih =>
    obtain ⟨pk, pv⟩ := p
    by_cases hp : pk = k
    · subst hp
      simp [insertKV, lookupKV, Ne.symm h]
    · simp [insertKV, lookupKV, hp, ih]

/-!
Section: Helper lemmas: `Account.apply`
-/

/-- The invariant of claim C1: `total` is the sum of `available` and `held`. -/
def AccInvariant (a : Account) : Prop := a.total = a.available + a.held

theorem commitRest_invariant (s : Account) (c : AccountDelta) :
    AccInvariant (Account.commitRest s c) := by
  unfold AccInvariant Account.commitRest
  cases c.held <;> cases c.locked <;> simp

/-- On an `Err` return, `Account::apply` has not touched any field. -/
theorem apply_err_unchanged (a : Account) (d : AccountDelta) (e : AccountError)
    (h : (a.apply d).2 = some e) : (a.apply d).1 = a := by
  unfold Account.apply at h ⊢
  by_cases hL : a.locked <;> simp [hL] at h ⊢
  cases hA : d.available <;> simp [hA] at h ⊢
  split at h <;> simp_all

/-- Rust `Account::apply` preserves the `total = available + held` invariant in both
the `Ok` case (via `update_total`) and the `Err` case (no mutation). -/
theorem apply_invariant (a : Account) (d : AccountDelta) (h : AccInvariant a) :
    AccInvariant (a.apply d).1 := by
  unfold Account.apply
  by_cases hL : a.locked <;> simp [hL]
  · exact h
  · cases hA : d.available <;> simp
    · exact commitRest_invariant ..
    · split
      · exact h
      · exact commitRest_invariant ..

/-- Applying the empty delta to an account satisfying the invariant leaves it
exactly as it was (on both the `Ok` and the locked `Err` path). -/
theorem apply_none_fst (a : Account) (h : AccInvariant a) :
    (a.apply AccountDelta.none).1 = a := by
  obtain ⟨id, av, he, tot, lk⟩ := a
  simp [AccInvariant] at h
  unfold Account.apply AccountDelta.none
  cases lk <;> simp [Account.commitRest, h]

/-!
Section: Helper lemmas: the engine step
-/

/-- The account store after one `process_transaction`: the result of `apply`
written back at the submitting client's key. -/
theorem process_transaction_accounts (e : Engine) (t : Transaction) :
    (e.process_transaction t).accounts =
      insertKV t.client_id
        (((lookupKV t.client_id e.accounts).getD (Account.new t.client_id)).apply
          (produce_delta e.transactions t).1).1 e.accounts := by
  unfold Engine.process_transaction
  cases hr : (((lookupKV t.client_id e.accounts).getD (Account.new t.client_id)).apply
      (produce_delta e.transactions t).1).2 <;> simp [hr]

/-- The transaction store after one `process_transaction`: the store produced
by `produce_delta`, with a `Succeeded`/`Failed` report through `set_state`. -/
theorem process_transaction_transactions (e : Engine) (t : Transaction) :
    ∃ st, (st = TransactionState.Succeeded ∨ st = TransactionState.Failed) ∧
      (e.process_transaction t).transactions =
        set_state (produce_delta e.transactions t).2 t.tx_id st := by
  unfold Engine.process_transaction
  cases hr : (((lookupKV t.client_id e.accounts).getD (Account.new t.client_id)).apply
      (produce_delta e.transactions t).1).2 with
  | none => exact ⟨_, Or.inl rfl, by simp [hr, succeed]⟩
  | some err => exact ⟨_, Or.inr rfl, by simp [hr, failed]⟩

/-- All accounts in the ledger satisfy the `total = available + held`
invariant. -/
def EngineAccInv (e : Engine) : Prop :=
  ∀ c a, lookupKV c e.accounts = some a → AccInvariant a

theorem engineAccInv_init : EngineAccInv Engine.init := by
  intro c a h
  simp [Engine.init, lookupKV] at h

theorem engineAccInv_step (e : Engine) (t : Transaction) (h : EngineAccInv e) :
    EngineAccInv (e.process_transaction t) := by
  intro c a ha
  rw [process_transaction_accounts] at ha
  by_cases hc : c = t.client_id
  · subst hc
    rw [lookupKV_insertKV_self] at ha
    cases Option.some.inj ha
    apply apply_invariant
    cases hl : lookupKV t.client_id e.accounts with
    | none => simp [hl, Account.new, AccInvariant]
    | some a0 => simpa [hl] using h _ _ hl
  · rw [lookupKV_insertKV_ne _ _ hc] at ha
    exact h _ _ ha

theorem engineAccInv_processList (txs : List Transaction) :
    ∀ e, EngineAccInv e → EngineAccInv (txs.foldl Engine.process_transaction e) := by
  induction txs with
  | nil => exact fun e h => h
  | cons t rest ih => exact fun e h => ih _ (engineAccInv_step e t h)

theorem engineAccInv_processAll (txs : List Transaction) :
    EngineAccInv (Engine.processAll txs) :=
  engineAccInv_processList txs Engine.init engineAccInv_init

/-- No transaction in the log is still in state `New` (between engine steps the
deferred `succeed`/`failed` report has always resolved the fresh insert). -/
def TxInv (s : TransactionStore) : Prop :=
  ∀ id tx, lookupKV id s = some tx → tx.state ≠ TransactionState.New

theorem txInv_insert_state (s : TransactionStore) (k : TransactionID) (tx : Transaction)
    (st : TransactionState) (hst : st ≠ TransactionState.New) (h : TxInv s) :
    TxInv (insertKV k { tx with state := st } s) := by
  intro id tx' hl
  by_cases hid : id = k
  · subst hid
    rw [lookupKV_insertKV_self] at hl
    cases Option.some.inj hl
    simpa using hst
  · rw [lookupKV_insertKV_ne _ _ hid] at hl
    exact h _ _ hl

/-- On a store with no `New` entry, `set_state`'s New-only guard makes it a
no-op. -/
theorem set_state_eq_of_txInv (s : TransactionStore) (id : TransactionID)
    (st : TransactionState) (h : TxInv s) : set_state s id st = s := by
  unfold set_state
  cases hl : lookupKV id s with
  | none => rfl
  | some tx => simp [h id tx hl]

/-- Running `set_state` to a non-`New` state yields a store with no `New` entry,
provided every entry off the targeted key already had a non-`New` state. -/
theorem txInv_set_state (s : TransactionStore) (id : TransactionID)
    (st : TransactionState) (hst : st ≠ TransactionState.New)
    (h : ∀ id' tx, lookupKV id' s = some tx → id' ≠ id → tx.state ≠ TransactionState.New) :
    TxInv (set_state s id st) := by
  intro id' tx' hl'
  unfold set_state at hl'
  cases hl : lookupKV id s with
  | none =>
    simp only [hl] at hl'
    by_cases hid : id' = id
    · subst hid
      rw [hl'] at hl
      cases hl
    · exact h _ _ hl' hid
  | some tx =>
    simp only [hl] at hl'
    by_cases hN : tx.state = TransactionState.New
    · rw [if_pos hN] at hl'
      by_cases hid : id' = id
      · subst hid
        rw [lookupKV_insertKV_self] at hl'
        cases Option.some.inj hl'
        simpa using hst
      · rw [lookupKV_insertKV_ne _ _ hid] at hl'
        exact h _ _ hl' hid
    · rw [if_neg hN] at hl'
      by_cases hid : id' = id
      · subst hid
        rw [hl'] at hl
        cases Option.some.inj hl
        exact hN
      · exact h _ _ hl' hid

/-- The store component of `dispute`: unchanged, or the looked-up transaction
re-stored with state `Disputed`. -/
theorem dispute_snd_cases (store : TransactionStore) (dt : Transaction) :
    (dispute store dt).2 = store
    ∨ ∃ tx, lookupKV dt.tx_id store = some tx
        ∧ (dispute store dt).2 =
            insertKV dt.tx_id { tx with state := TransactionState.Disputed } store := by
  unfold dispute
  cases hl : lookupKV dt.tx_id store with
  | none => exact Or.inl rfl
  | some tx =>
    simp only
    split
    · exact Or.inl rfl
    · split
      · exact Or.inl rfl
      · split
        · exact Or.inr ⟨tx, rfl, rfl⟩
        · exact Or.inr ⟨tx, rfl, rfl⟩
        · exact Or.inl rfl

/-- The store component of `resolve`: unchanged, or the looked-up transaction
re-stored with state `Resolved`. -/
theorem resolve_snd_cases (store : TransactionStore) (rt : Transaction) :
    (resolve store rt).2 = store
    ∨ ∃ tx, lookupKV rt.tx_id store = some tx
        ∧ (resolve store rt).2 =
            insertKV rt.tx_id { tx with state := TransactionState.Resolved } store := by
  unfold resolve
  cases hl : lookupKV rt.tx_id store with
  | none => exact Or.inl rfl
  | some tx =>
    simp only
    split
    · exact Or.inl rfl
    · split
      · exact Or.inl rfl
      · split
        · exact Or.inr ⟨tx, rfl, rfl⟩
        · exact Or.inr ⟨tx, rfl, rfl⟩
        · exact Or.inl rfl

/-- The store component of `chargeback`: unchanged, or the looked-up
transaction re-stored with state `Chargeback`. -/
theorem chargeback_snd_cases (store : TransactionStore) (ct : Transaction) :
    (chargeback store ct).2 = store
    ∨ ∃ tx, lookupKV ct.tx_id store = some tx
        ∧ (chargeback store ct).2 =
            insertKV ct.tx_id { tx with state := TransactionState.Chargeback } store := by
  unfold chargeback
  cases hl : lookupKV ct.tx_id store with
  | none => exact Or.inl rfl
  | some tx =>
    simp only
    split
    · exact Or.inl rfl
    · split
      · split
        · exact Or.inr ⟨tx, rfl, rfl⟩
        · exact Or.inr ⟨tx, rfl, rfl⟩
        · exact Or.inl rfl
      · exact Or.inl rfl

/-- The store component of `produce_delta`: a deposit/withdrawal insert, the
store unchanged, or one lifecycle-state update in place. -/
theorem produce_delta_snd_cases (store : TransactionStore) (t : Transaction) :
    (produce_delta store t).2 = store.insertTx t
    ∨ (produce_delta store t).2 = store
    ∨ ∃ tx st, lookupKV t.tx_id store = some tx
        ∧ st ≠ TransactionState.New
        ∧ (produce_delta store t).2 = insertKV t.tx_id { tx with state := st } store := by
  unfold produce_delta
  cases hk : t.kind with
  | Deposit amount => exact Or.inl rfl
  | Withdrawal amount => exact Or.inl rfl
  | Dispute =>
    rcases dispute_snd_cases store t with h | ⟨tx, hl, h⟩
    · exact Or.inr (Or.inl h)
    · exact Or.inr (Or.inr ⟨tx, TransactionState.Disputed, hl, by simp, h⟩)
  | Resolve =>
    rcases resolve_snd_cases store t with h | ⟨tx, hl, h⟩
    · exact Or.inr (Or.inl h)
    · exact Or.inr (Or.inr ⟨tx, TransactionState.Resolved, hl, by simp, h⟩)
  | Chargeback =>
    rcases chargeback_snd_cases store t with h | ⟨tx, hl, h⟩
    · exact Or.inr (Or.inl h)
    · exact Or.inr (Or.inr ⟨tx, TransactionState.Chargeback, hl, by simp, h⟩)

theorem engineTxInv_step (e : Engine) (t : Transaction) (h : TxInv e.transactions) :
    TxInv (e.process_transaction t).transactions := by
  obtain ⟨st, hst, htr⟩ := process_transaction_transactions e t
  have hst' : st ≠ TransactionState.New := by
    rcases hst with rfl | rfl <;> simp
  rw [htr]
  rcases produce_delta_snd_cases e.transactions t with hpd | hpd | ⟨tx, st2, hl, hst2, hpd⟩
  · rw [hpd]
    apply txInv_set_state _ _ _ hst'
    intro id' tx' hl' hid
    rw [TransactionStore.insertTx, lookupKV_insertKV_ne _ _ hid] at hl'
    exact h _ _ hl'
  · rw [hpd, set_state_eq_of_txInv _ _ _ h]
    exact h
  · rw [hpd]
    have h2 : TxInv (insertKV t.tx_id { tx with state := st2 } e.transactions) :=
      txInv_insert_state _ _ _ _ hst2 h
    rw [set_state_eq_of_txInv _ _ _ h2]
    exact h2

theorem engineTxInv_processList (txs : List Transaction) :
    ∀ e, TxInv e.transactions → TxInv (txs.foldl Engine.process_transaction e).transactions := by
  induction txs with
  | nil => exact fun e h => h
  | cons t rest ih => exact fun e h => ih _ (engineTxInv_step e t h)

theorem engineTxInv_processAll (txs : List Transaction) :
    TxInv (Engine.processAll txs).transactions :=
  engineTxInv_processList txs Engine.init (by intro id tx h; simp [Engine.init, lookupKV] at h)

/-!
Section: Claims
-/

/-- Claim C1: For every account and after every `Engine.process_transaction` call
(and every `Account.apply` call, whether it returns `Ok` or `Err`), the
account's `total` field equals `available + held`; newly created accounts start
with all three fields zero so the invariant holds initially. -/
theorem total_eq_available_add_held :
    (∀ id : ClientID, (Account.new id).available = 0 ∧ (Account.new id).held = 0
      ∧ (Account.new id).total = 0
      ∧ (Account.new id).total = (Account.new id).available + (Account.new id).held)
    ∧ (∀ (a : Account) (d : AccountDelta), a.total = a.available + a.held →
        (a.apply d).1.total = (a.apply d).1.available + (a.apply d).1.held)
    ∧ (∀ (txs : List Transaction) (c : ClientID) (a : Account),
        lookupKV c (Engine.processAll txs).accounts = some a →
        a.total = a.available + a.held) := by
  refine ⟨?_, fun a d h => apply_invariant a d h, ?_⟩
  · intro id
    simp [Account.new]
  · intro txs c a h
    exact engineAccInv_processAll txs c a h

theorem total_eq_available_add_held_witness :
    lookupKV 1 (Engine.processAll
        [⟨TransactionKind.Deposit 3, 1, 1, TransactionState.New⟩,
         ⟨TransactionKind.Dispute, 1, 1, TransactionState.New⟩]).accounts
      = some ⟨1, 0, 3, 3, false⟩
    ∧ (⟨1, 0, 3, 3, false⟩ : Account).total
        = (⟨1, 0, 3, 3, false⟩ : Account).available + (⟨1, 0, 3, 3, false⟩ : Account).held :=
  ⟨by decide,
   total_eq_available_add_held.2.2
     [⟨TransactionKind.Deposit 3, 1, 1, TransactionState.New⟩,
      ⟨TransactionKind.Dispute, 1, 1, TransactionState.New⟩]
     1 ⟨1, 0, 3, 3, false⟩ (by decide)⟩

/-- Claim C3: Once an account's `locked` field is true, every `Account.apply`
call returns the `Locked` error and changes nothing: the post-state is the
account itself, whatever the delta — including a delta with
`locked := some false`. -/
theorem locked_account_permanently_rejects (a : Account) (d : AccountDelta)
    (h : a.locked = true) :
    a.apply d = (a, some AccountError.Locked) := by
  unfold Account.apply
  simp [h]

theorem locked_account_permanently_rejects_witness :
    (⟨1, 5, 2, 7, true⟩ : Account).locked = true
    ∧ (⟨1, 5, 2, 7, true⟩ : Account).apply
        { available := some 4, held := some 1, locked := some false, can_create_debt := some true }
      = (⟨1, 5, 2, 7, true⟩, some AccountError.Locked) :=
  ⟨rfl, locked_account_permanently_rejects _ _ rfl⟩

/-- Claim C4: `Account.apply` fails with `Locked` exactly when the account is
locked, fails with `InsufficientFunds` exactly when it is unlocked and the
delta carries an `available` change that would drive `available` negative
without the `can_create_debt` flag set, and on every error the account is
returned unchanged. -/
theorem apply_error_characterization (a : Account) (d : AccountDelta) :
    ((a.apply d).2 = some AccountError.Locked ↔ a.locked = true)
    ∧ ((a.apply d).2 = some AccountError.InsufficientFunds ↔
        a.locked = false ∧ ∃ v, d.available = some v
          ∧ d.can_create_debt.getD false = false ∧ a.available + v < 0)
    ∧ (∀ e : AccountError, (a.apply d).2 = some e → (a.apply d).1 = a) := by
  refine ⟨?_, ?_, fun e => apply_err_unchanged a d e⟩
  · unfold Account.apply
    by_cases hL : a.locked
    · simp [hL]
    · cases hA : d.available <;> simp [hL, hA]
      split <;> simp
  · unfold Account.apply
    by_cases hL : a.locked
    · simp [hL]
    · cases hA : d.available <;> simp [hL, hA]
      split <;> simp_all

theorem apply_error_characterization_witness :
    ((⟨1, 3, 0, 3, false⟩ : Account).apply { available := some (-5) }).2
      = some AccountError.InsufficientFunds
    ∧ ((⟨1, 3, 0, 3, false⟩ : Account).apply { available := some (-5) }).1
      = ⟨1, 3, 0, 3, false⟩ :=
  ⟨(apply_error_characterization _ _).2.1.mpr ⟨rfl, -5, rfl, rfl, by decide⟩,
   (apply_error_characterization _ _).2.2 AccountError.InsufficientFunds
     ((apply_error_characterization _ _).2.1.mpr ⟨rfl, -5, rfl, rfl, by decide⟩)⟩

/-- Claim C10: Every transaction processed by the Engine — including a
`Dispute`/`Resolve`/`Chargeback` yielding an empty delta — creates an account
for the submitting `client_id` if none exists, with all balances zero and
`locked` false, so that client appears in the final accounts snapshot. -/
theorem process_transaction_creates_account (e : Engine) (t : Transaction) :
    (lookupKV t.client_id (e.process_transaction t).accounts).isSome = true
    ∧ (lookupKV t.client_id e.accounts = none →
        (produce_delta e.transactions t).1 = AccountDelta.none →
        lookupKV t.client_id (e.process_transaction t).accounts
          = some (Account.new t.client_id)) := by
  constructor
  · rw [process_transaction_accounts, lookupKV_insertKV_self]
    rfl
  · intro h0 hd
    rw [process_transaction_accounts, h0, hd]
    simp only [Option.getD_none]
    rw [lookupKV_insertKV_self,
      apply_none_fst _ (by simp [Account.new, AccInvariant])]

/-- Claim C5: A `Dispute` whose referenced `tx_id` is stored with matching
`client_id` behaves as follows: when the stored state is `Resolved`,
`Chargeback` or `Disputed` it is a no-op (empty delta, store unchanged, so a
transaction is disputed at most once); otherwise a stored `Deposit amount` is
marked `Disputed` with delta
`{available := -amount, held := amount, can_create_debt := true}`, and a stored
`Withdrawal amount` is marked `Disputed` with delta `{held := amount}` only. -/
theorem dispute_behavior (store : TransactionStore) (dt tx : Transaction)
    (hk : dt.kind = TransactionKind.Dispute)
    (hl : lookupKV dt.tx_id store = some tx)
    (hc : dt.client_id = tx.client_id) :
    ((tx.state = TransactionState.Resolved ∨ tx.state = TransactionState.Chargeback
        ∨ tx.state = TransactionState.Disputed) →
      produce_delta store dt = (AccountDelta.none, store))
    ∧ (tx.state ≠ TransactionState.Resolved → tx.state ≠ TransactionState.Chargeback →
       tx.state ≠ TransactionState.Disputed →
        (∀ amount, tx.kind = TransactionKind.Deposit amount →
          produce_delta store dt =
            ({ available := some (-amount), held := some amount,
               locked := none, can_create_debt := some true },
             insertKV dt.tx_id { tx with state := TransactionState.Disputed } store))
        ∧ (∀ amount, tx.kind = TransactionKind.Withdrawal amount →
          produce_delta store dt =
            ({ available := none, held := some amount,
               locked := none, can_create_debt := none },
             insertKV dt.tx_id { tx with state := TransactionState.Disputed } store))) := by
  unfold produce_delta
  simp only [hk]
  unfold dispute
  simp only [hl]
  rw [if_neg (by simp [hc])]
  constructor
  · intro hstate
    rw [if_pos hstate]
  · intro h1 h2 h3
    rw [if_neg (by simp [h1, h2, h3])]
    constructor
    · intro amount hkind
      simp only [hkind]
      rfl
    · intro amount hkind
      simp only [hkind]
      rfl

theorem dispute_behavior_witness :
    lookupKV 1 ([(1, ⟨TransactionKind.Deposit 3, 1, 1, TransactionState.Succeeded⟩)] :
        TransactionStore)
      = some (⟨TransactionKind.Deposit 3, 1, 1, TransactionState.Succeeded⟩ : Transaction)
    ∧ produce_delta [(1, ⟨TransactionKind.Deposit 3, 1, 1, TransactionState.Succeeded⟩)]
        ⟨TransactionKind.Dispute, 1, 1, TransactionState.New⟩
      = ({ available := some (-3), held := some 3, locked := none, can_create_debt := some true },
         [(1, ⟨TransactionKind.Deposit 3, 1, 1, TransactionState.Disputed⟩)]) :=
  ⟨by decide,
   ((dispute_behavior [(1, ⟨TransactionKind.Deposit 3, 1, 1, TransactionState.Succeeded⟩)]
      ⟨TransactionKind.Dispute, 1, 1, TransactionState.New⟩
      ⟨TransactionKind.Deposit 3, 1, 1, TransactionState.Succeeded⟩
      rfl (by decide) rfl).2 (by decide) (by decide) (by decide)).1 3 rfl⟩

/-- Claim C6: A `Chargeback` whose referenced `tx_id` is stored with matching
`client_id` and state `Disputed` marks it `Chargeback` and returns the delta
`{held := -amount, locked := true}`; absent, client-mismatched or
wrongly-stated references are no-ops with the store unchanged.  The chargeback
delta carries no `available` change, so applying it to an unlocked account
never fails — there is no re-validation of available (or held) funds. -/
theorem chargeback_behavior (store : TransactionStore) (ct : Transaction)
    (hk : ct.kind = TransactionKind.Chargeback) :
    (lookupKV ct.tx_id store = none → produce_delta store ct = (AccountDelta.none, store))
    ∧ (∀ tx, lookupKV ct.tx_id store = some tx →
        (ct.client_id ≠ tx.client_id → produce_delta store ct = (AccountDelta.none, store))
        ∧ (tx.state ≠ TransactionState.Disputed →
            produce_delta store ct = (AccountDelta.none, store))
        ∧ (ct.client_id = tx.client_id → tx.state = TransactionState.Disputed →
            ∀ amount, (tx.kind = TransactionKind.Deposit amount
                ∨ tx.kind = TransactionKind.Withdrawal amount) →
              produce_delta store ct =
                ({ available := none, held := some (-amount),
                   locked := some true, can_create_debt := none },
                 insertKV ct.tx_id { tx with state := TransactionState.Chargeback } store)))
    ∧ (∀ (acct : Account) (amount : Amount), acct.locked = false →
        (acct.apply { available := none, held := some (-amount),
                      locked := some true, can_create_debt := none }).2 = none) := by
  refine ⟨?_, ?_, ?_⟩
  · intro h0
    unfold produce_delta
    simp only [hk]
    unfold chargeback
    simp only [h0]
  · intro tx hl
    unfold produce_delta
    simp only [hk]
    unfold chargeback
    simp only [hl]
    refine ⟨fun hm => ?_, fun hs => ?_, fun hc hs amount hkind => ?_⟩
    · rw [if_pos hm]
    · by_cases hm : ct.client_id ≠ tx.client_id
      · rw [if_pos hm]
      · rw [if_neg hm, if_neg hs]
    · rw [if_neg (by simp [hc]), if_pos hs]
      rcases hkind with hkind | hkind <;> simp only [hkind] <;> rfl
  · intro acct amount hL
    unfold Account.apply
    simp [hL]

theorem chargeback_behavior_witness :
    lookupKV 1 ([(1, ⟨TransactionKind.Withdrawal 3, 1, 1, TransactionState.Disputed⟩)] :
        TransactionStore)
      = some (⟨TransactionKind.Withdrawal 3, 1, 1, TransactionState.Disputed⟩ : Transaction)
    ∧ produce_delta [(1, ⟨TransactionKind.Withdrawal 3, 1, 1, TransactionState.Disputed⟩)]
        ⟨TransactionKind.Chargeback, 1, 1, TransactionState.New⟩
      = ({ available := none, held := some (-3), locked := some true, can_create_debt := none },
         [(1, ⟨TransactionKind.Withdrawal 3, 1, 1, TransactionState.Chargeback⟩)]) :=
  ⟨by decide,
   (((chargeback_behavior [(1, ⟨TransactionKind.Withdrawal 3, 1, 1, TransactionState.Disputed⟩)]
      ⟨TransactionKind.Chargeback, 1, 1, TransactionState.New⟩ rfl).2.1
      ⟨TransactionKind.Withdrawal 3, 1, 1, TransactionState.Disputed⟩
      (by decide)).2.2 rfl rfl 3 (Or.inr rfl))⟩

/-- Claim C8: For every `Dispute`, `Resolve` or `Chargeback` whose `client_id`
differs from the `client_id` stored on the referenced transaction, processing
it (in any reachable engine state) produces an empty delta, leaves the
transaction log identical, and preserves every account unchanged — the
client-id cross-check fires before the state check, so no assumption on the
stored transaction's state is needed for the no-op delta. -/
theorem cross_client_isolation (txs : List Transaction) (t tx : Transaction)
    (hk : t.kind = TransactionKind.Dispute ∨ t.kind = TransactionKind.Resolve
      ∨ t.kind = TransactionKind.Chargeback)
    (hl : lookupKV t.tx_id (Engine.processAll txs).transactions = some tx)
    (hm : t.client_id ≠ tx.client_id) :
    produce_delta (Engine.processAll txs).transactions t
      = (AccountDelta.none, (Engine.processAll txs).transactions)
    ∧ ((Engine.processAll txs).process_transaction t).transactions
      = (Engine.processAll txs).transactions
    ∧ (∀ (c : ClientID) (a : Account),
        lookupKV c (Engine.processAll txs).accounts = some a →
        lookupKV c ((Engine.processAll txs).process_transaction t).accounts = some a) := by
  have hpd : produce_delta (Engine.processAll txs).transactions t
      = (AccountDelta.none, (Engine.processAll txs).transactions) := by
    rcases hk with hk | hk | hk
    · unfold produce_delta
      simp only [hk]
      unfold dispute
      simp only [hl]
      rw [if_pos hm]
    · unfold produce_delta
      simp only [hk]
      unfold resolve
      simp only [hl]
      rw [if_pos hm]
    · unfold produce_delta
      simp only [hk]
      unfold chargeback
      simp only [hl]
      rw [if_pos hm]
  refine ⟨hpd, ?_, ?_⟩
  · obtain ⟨st, hstd, htr⟩ := process_transaction_transactions (Engine.processAll txs) t
    rw [htr, hpd]
    exact set_state_eq_of_txInv _ _ _ (engineTxInv_processAll txs)
  · intro c a ha
    rw [process_transaction_accounts, hpd]
    by_cases hc : c = t.client_id
    · subst hc
      rw [lookupKV_insertKV_self, ha, Option.getD_some,
        apply_none_fst a (engineAccInv_processAll txs _ _ ha)]
    · rw [lookupKV_insertKV_ne _ _ hc]
      exact ha

theorem cross_client_isolation_witness :
    lookupKV 1 (Engine.processAll
        [⟨TransactionKind.Deposit 3, 1, 1, TransactionState.New⟩]).transactions
      = some ⟨TransactionKind.Deposit 3, 1, 1, TransactionState.Succeeded⟩
    ∧ lookupKV 1 ((Engine.processAll
        [⟨TransactionKind.Deposit 3, 1, 1, TransactionState.New⟩]).process_transaction
        ⟨TransactionKind.Dispute, 2, 1, TransactionState.New⟩).accounts
      = some ⟨1, 3, 0, 3, false⟩ :=
  ⟨by decide,
   (cross_client_isolation [⟨TransactionKind.Deposit 3, 1, 1, TransactionState.New⟩]
      ⟨TransactionKind.Dispute, 2, 1, TransactionState.New⟩
      ⟨TransactionKind.Deposit 3, 1, 1, TransactionState.Succeeded⟩
      (Or.inl rfl) (by decide) (by decide)).2.2 1 ⟨1, 3, 0, 3, false⟩ (by decide)⟩

/-- Claim C2: The dispute guard in `TransactionProcessor::dispute` only blocks
states `Resolved`, `Chargeback` and `Disputed`, so a stored transaction in
state `Failed` *can* be disputed.  Evaluating the code on the failing input
`Deposit(1, tx 1, 3); Withdrawal(1, tx 2, 5); Dispute(1, tx 2)`: the
withdrawal fails with insufficient funds (state `Failed`), yet the dispute
advances it to `Disputed` and returns the non-empty delta `{held := +5}`,
crediting `held` with funds the failed withdrawal never moved. -/
theorem dispute_of_failed_transaction_eval :
    Engine.processAll
        [⟨TransactionKind.Deposit 3, 1, 1, TransactionState.New⟩,
         ⟨TransactionKind.Withdrawal 5, 1, 2, TransactionState.New⟩]
      = { transactions :=
            [(1, ⟨TransactionKind.Deposit 3, 1, 1, TransactionState.Succeeded⟩),
             (2, ⟨TransactionKind.Withdrawal 5, 1, 2, TransactionState.Failed⟩)],
          accounts := [(1, ⟨1, 3, 0, 3, false⟩)] }
    ∧ produce_delta
        [(1, ⟨TransactionKind.Deposit 3, 1, 1, TransactionState.Succeeded⟩),
         (2, ⟨TransactionKind.Withdrawal 5, 1, 2, TransactionState.Failed⟩)]
        ⟨TransactionKind.Dispute, 1, 2, TransactionState.New⟩
      = ({ available := none, held := some 5, locked := none, can_create_debt := none },
         [(1, ⟨TransactionKind.Deposit 3, 1, 1, TransactionState.Succeeded⟩),
          (2, ⟨TransactionKind.Withdrawal 5, 1, 2, TransactionState.Disputed⟩)])
    ∧ Engine.processAll
        [⟨TransactionKind.Deposit 3, 1, 1, TransactionState.New⟩,
         ⟨TransactionKind.Withdrawal 5, 1, 2, TransactionState.New⟩,
         ⟨TransactionKind.Dispute, 1, 2, TransactionState.New⟩]
      = { transactions :=
            [(1, ⟨TransactionKind.Deposit 3, 1, 1, TransactionState.Succeeded⟩),
             (2, ⟨TransactionKind.Withdrawal 5, 1, 2, TransactionState.Disputed⟩)],
          accounts := [(1, ⟨1, 3, 5, 8, false⟩)] } :=
  ⟨by decide, by decide, by decide⟩

/-- Claim C7, counterexample: `TransactionStore::insert` is `HashMap::insert`:
a second deposit/withdrawal carrying an already-present `tx_id` *replaces* the
stored transaction, changing its kind, amount and client_id. -/
theorem transaction_log_replacement_counterexample :
    lookupKV 1 (produce_delta []
        ⟨TransactionKind.Deposit 3, 1, 1, TransactionState.New⟩).2
      = some (⟨TransactionKind.Deposit 3, 1, 1, TransactionState.New⟩ : Transaction)
    ∧ lookupKV 1 (produce_delta
        (produce_delta [] ⟨TransactionKind.Deposit 3, 1, 1, TransactionState.New⟩).2
        ⟨TransactionKind.Withdrawal 5, 2, 1, TransactionState.New⟩).2
      = some (⟨TransactionKind.Withdrawal 5, 2, 1, TransactionState.New⟩ : Transaction) :=
  ⟨by decide, by decide⟩

theorem lookupKV_map_insert_state (s : TransactionStore) (k : TransactionID)
    (tx : Transaction) (st : TransactionState) (hl : lookupKV k s = some tx)
    (id : TransactionID) :
    (lookupKV id (insertKV k { tx with state := st } s)).map
        (fun tx => (tx.kind, tx.client_id))
      = (lookupKV id s).map (fun tx => (tx.kind, tx.client_id)) := by
  by_cases hid : id = k
  · subst hid
    rw [lookupKV_insertKV_self, hl]
    rfl
  · rw [lookupKV_insertKV_ne _ _ hid]

theorem set_state_map_core (s : TransactionStore) (k : TransactionID)
    (st : TransactionState) (id : TransactionID) :
    (lookupKV id (set_state s k st)).map (fun tx => (tx.kind, tx.client_id))
      = (lookupKV id s).map (fun tx => (tx.kind, tx.client_id)) := by
  unfold set_state
  cases hl : lookupKV k s with
  | none => rfl
  | some tx =>
    simp only
    split
    · exact lookupKV_map_insert_state s k tx _ hl id
    · rfl

/-- Claim C7, amended: Reference operations (`Dispute`/`Resolve`/`Chargeback`)
and the deferred success/failure report only ever mutate a stored
transaction's lifecycle state — its kind, amount and client_id are preserved
at every key; but a second deposit/withdrawal carrying an already-present
`tx_id` replaces the stored transaction wholesale (the stored entry becomes
the incoming transaction, up to its lifecycle state). -/
theorem transaction_log_amended (e : Engine) (t : Transaction) :
    (t.kind = TransactionKind.Dispute ∨ t.kind = TransactionKind.Resolve
        ∨ t.kind = TransactionKind.Chargeback →
      ∀ id : TransactionID,
        (lookupKV id (e.process_transaction t).transactions).map
            (fun tx => (tx.kind, tx.client_id))
          = (lookupKV id e.transactions).map (fun tx => (tx.kind, tx.client_id)))
    ∧ (∀ amount : Amount, t.kind = TransactionKind.Deposit amount
          ∨ t.kind = TransactionKind.Withdrawal amount →
        ∃ st, lookupKV t.tx_id (e.process_transaction t).transactions
          = some { t with state := st }) := by
  constructor
  · intro hk id
    obtain ⟨st, hstd, htr⟩ := process_transaction_transactions e t
    rw [htr, set_state_map_core]
    rcases hk with hk | hk | hk
    · have hpd : (produce_delta e.transactions t).2 = (dispute e.transactions t).2 := by
        unfold produce_delta
        simp only [hk]
      rw [hpd]
      rcases dispute_snd_cases e.transactions t with h | ⟨tx, hl, h⟩
      · rw [h]
      · rw [h]
        exact lookupKV_map_insert_state _ _ _ _ hl id
    · have hpd : (produce_delta e.transactions t).2 = (resolve e.transactions t).2 := by
        unfold produce_delta
        simp only [hk]
      rw [hpd]
      rcases resolve_snd_cases e.transactions t with h | ⟨tx, hl, h⟩
      · rw [h]
      · rw [h]
        exact lookupKV_map_insert_state _ _ _ _ hl id
    · have hpd : (produce_delta e.transactions t).2 = (chargeback e.transactions t).2 := by
        unfold produce_delta
        simp only [hk]
      rw [hpd]
      rcases chargeback_snd_cases e.transactions t with h | ⟨tx, hl, h⟩
      · rw [h]
      · rw [h]
        exact lookupKV_map_insert_state _ _ _ _ hl id
  · intro amount hka
    obtain ⟨st, hstd, htr⟩ := process_transaction_transactions e t
    rw [htr]
    have hpd : (produce_delta e.transactions t).2 = insertKV t.tx_id t e.transactions := by
      unfold produce_delta
      rcases hka with hk | hk <;> simp only [hk] <;> rfl
    rw [hpd]
    unfold set_state
    simp only [lookupKV_insertKV_self]
    by_cases hN : t.state = TransactionState.New
    · rw [if_pos hN]
      exact ⟨st, by rw [lookupKV_insertKV_self]⟩
    · rw [if_neg hN]
      exact ⟨t.state, by rw [lookupKV_insertKV_self]⟩

theorem transaction_log_amended_witness :
    (lookupKV 1 ((Engine.processAll
          [⟨TransactionKind.Deposit 3, 1, 1, TransactionState.New⟩]).process_transaction
          ⟨TransactionKind.Dispute, 1, 1, TransactionState.New⟩).transactions).map
        (fun tx => (tx.kind, tx.client_id))
      = (lookupKV 1 (Engine.processAll
          [⟨TransactionKind.Deposit 3, 1, 1, TransactionState.New⟩]).transactions).map
        (fun tx => (tx.kind, tx.client_id)) :=
  (transaction_log_amended
    (Engine.processAll [⟨TransactionKind.Deposit 3, 1, 1, TransactionState.New⟩])
    ⟨TransactionKind.Dispute, 1, 1, TransactionState.New⟩).1 (Or.inl rfl) 1

theorem process_transaction_creates_account_witness :
    lookupKV 7 Engine.init.accounts = none
    ∧ (produce_delta Engine.init.transactions
        ⟨TransactionKind.Dispute, 7, 9, TransactionState.New⟩).1 = AccountDelta.none
    ∧ lookupKV 7 (Engine.init.process_transaction
        ⟨TransactionKind.Dispute, 7, 9, TransactionState.New⟩).accounts
      = some (Account.new 7) :=
  ⟨rfl, rfl,
   (process_transaction_creates_account Engine.init
     ⟨TransactionKind.Dispute, 7, 9, TransactionState.New⟩).2 rfl rfl⟩

/-!
Section: Serialization lemmas (C9)
-/

theorem digitChar_ne_dot : ∀ d, d < 10 → (digitChar d != ('.' : Char)) = true := by
  decide

theorem mem_natCharsAux (fuel : Nat) :
    ∀ n, ∀ c ∈ natCharsAux fuel n, (c != ('.' : Char)) = true := by
  induction fuel with
  | zero =>
    intro n c hc
    simp [natCharsAux] at hc
  | succ fuel ih =>
    intro n c hc
    unfold natCharsAux at hc
    split at hc
    · simp only [List.mem_singleton] at hc
      subst hc
      exact digitChar_ne_dot n (by omega)
    · rcases List.mem_append.mp hc with h | h
      · exact ih _ c h
      · simp only [List.mem_singleton] at h
        subst h
        exact digitChar_ne_dot _ (Nat.mod_lt _ (by omega))

theorem mem_natCharsPadded (w : Nat) :
    ∀ n, ∀ c ∈ natCharsPadded w n, (c != ('.' : Char)) = true := by
  induction w with
  | zero =>
    intro n c hc
    simp [natCharsPadded] at hc
  | succ w ih =>
    intro n c hc
    unfold natCharsPadded at hc
    rcases List.mem_append.mp hc with h | h
    · exact ih _ c h
    · simp only [List.mem_singleton] at h
      subst h
      exact digitChar_ne_dot _ (Nat.mod_lt _ (by omega))

theorem natCharsPadded_length (w : Nat) : ∀ n, (natCharsPadded w n).length = w := by
  induction w with
  | zero => intro n; rfl
  | succ w ih =>
    intro n
    unfold natCharsPadded
    simp [ih]

theorem dropWhile_dot_append (l1 l2 : List Char)
    (h : ∀ c ∈ l1, (c != ('.' : Char)) = true) :
    (l1 ++ l2).dropWhile (fun c => c != '.') = l2.dropWhile (fun c => c != '.') := by
  induction l1 with
  | nil => rfl
  | cons a l ih =>
    simp only [List.cons_append, List.dropWhile, h a (by simp)]
    exact ih fun c hc => h c (by simp [hc])

/-- A rendered decimal has exactly `scale` characters after the point (and no
point at all when the scale is zero). -/
theorem fracDigits_render (x : Dec) : fracDigits x.render = x.scale := by
  have hsign : ∀ c ∈ (if x.mantissa < 0 then "-" else "").data,
      (c != ('.' : Char)) = true := by
    split
    · intro c hc
      simp only [show ("-" : String).data = [Char.ofNat 45] from rfl,
        List.mem_singleton] at hc
      subst hc
      decide
    · intro c hc
      simp [show ("" : String).data = [] from rfl] at hc
  unfold Dec.render fracDigits
  by_cases h0 : x.scale = 0
  · rw [if_pos h0]
    rw [show ((if x.mantissa < 0 then "-" else "") ++ String.mk (natChars x.mantissa.natAbs)).data
        = (if x.mantissa < 0 then "-" else "").data ++ natChars x.mantissa.natAbs by simp]
    rw [List.dropWhile_eq_nil_iff.mpr]
    · exact h0.symm
    · intro c hc
      rcases List.mem_append.mp hc with h | h
      · exact hsign c h
      · exact mem_natCharsAux _ _ c h
  · rw [if_neg h0]
    rw [show ((if x.mantissa < 0 then "-" else "")
          ++ String.mk (natChars (x.mantissa.natAbs / 10 ^ x.scale)) ++ "."
          ++ String.mk (natCharsPadded x.scale (x.mantissa.natAbs % 10 ^ x.scale))).data
        = ((if x.mantissa < 0 then "-" else "").data
            ++ natChars (x.mantissa.natAbs / 10 ^ x.scale))
          ++ (('.' : Char) :: natCharsPadded x.scale (x.mantissa.natAbs % 10 ^ x.scale)) by
      simp [show ("." : String).data = [('.' : Char)] from rfl]]
    rw [dropWhile_dot_append]
    · simp [List.dropWhile, natCharsPadded_length]
    · intro c hc
      rcases List.mem_append.mp hc with h | h
      · exact hsign c h
      · exact mem_natCharsAux _ _ c h

theorem round_dp_away_scale (d : Dec) (dp : Nat) :
    (d.round_dp_away dp).scale = min d.scale dp := by
  unfold Dec.round_dp_away
  by_cases h : d.scale ≤ dp
  · rw [if_pos h]
    omega
  · rw [if_neg h]
    simp only
    omega

/-- Claim C9, counterexample: `round_dp_with_strategy` never pads a scale below
4 and `to_string` prints exactly `scale` fractional digits, so the balance `8`
(scale 0) serializes as `"8"` — not `"8.0000"` — and `8.0` (scale 1, the value
reached by summing parsed inputs such as `3.0` and `5.0`) serializes as
`"8.0"`. -/
theorem fixed_width_amount_counterexample :
    fixed_width_amount ⟨8, 0⟩ = "8"
    ∧ fracDigits (fixed_width_amount ⟨8, 0⟩) = 0
    ∧ fixed_width_amount ⟨80, 1⟩ = "8.0"
    ∧ fracDigits (fixed_width_amount ⟨80, 1⟩) = 1 :=
  ⟨by decide, by decide, by decide, by decide⟩

/-- Claim C9, amended: The serialization rounds to at most 4 fractional digits
(midpoints away from zero) and emits exactly `min scale 4` fractional digits:
values whose scale is below 4 keep their own scale instead of being padded. -/
theorem fixed_width_amount_amended :
    (∀ d : Dec, fracDigits (fixed_width_amount d) = min d.scale 4)
    ∧ fixed_width_amount ⟨123455, 5⟩ = "1.2346"
    ∧ fixed_width_amount ⟨-123455, 5⟩ = "-1.2346"
    ∧ fixed_width_amount ⟨123449, 5⟩ = "1.2345" := by
  refine ⟨fun d => ?_, by decide, by decide, by decide⟩
  unfold fixed_width_amount
  rw [fracDigits_render, round_dp_away_scale]

end Transactions
